import Mathlib

/-!
Shallow embedding of the Boker chain EVM interpreter
(`core/vm/interpreter.go`, provided as `src/unnamed/part_002`) together with
the gas constants of `src/chain/params/protocol_params.go`.

The interpreter's run loop, `NewInterpreter`, and `enforceRestrictions` are
translated directly from the source.  Components whose files are not part of
the provided sources (the stack, contract, memory, jump-table and gas-cost
files: only their callers appear in the sources) are modelled from the spec;
each such definition carries a doc comment starting `Modelled from the spec:`.
Machine words and gas counters are modelled as `Nat` with explicit `2 ^ 64`
bounds where the Go code checks 64-bit overflow.
-/

namespace BokerVM

/-- Byte sequences (contract code, call input, return data). -/
abbrev Bytes := List Nat

/-- Opcodes are single bytes. -/
abbrev OpCode := Nat

/-- The STOP opcode, byte 0x00. -/
def STOP : OpCode := 0x00

/-- Modelled from the spec: the CALL opcode of the CALL family, byte 0xf1. -/
def CALL : OpCode := 0xf1

/-- Modelled from the spec: the VM stack, an ordered sequence of 256-bit
unsigned integers; here the head of `data` is the top of the stack. -/
structure Stack where
  data : List Nat
deriving DecidableEq, Repr

/-- Modelled from the spec: `Back n` reads the n-th item from the top of the
stack, so `Back 2` is the third stack item from the top (the value operand of
a CALL, as the source comment in `enforceRestrictions` states). -/
def Stack.back (s : Stack) (n : Nat) : Nat :=
  s.data.getD n 0

/-- Errors the interpreter can report.  `execFailure k` stands for an error
value returned by an operation's execution function (an arbitrary Go error,
abstracted by a numeric code); the named constructors are the error kinds of
the spec's taxonomy, each produced at exactly one place in the run loop. -/
inductive VMErr where
  | invalidOpcode (op : OpCode)
  | stackUnderflow
  | stackOverflow
  | writeProtection
  | outOfGas
  | gasUintOverflow
  | executionReverted
  | execFailure (k : Nat)
deriving DecidableEq, Repr

/-- Stack-validation outcomes of an operation's `validateStack`. -/
inductive StackFail where
  | underflow
  | overflow
deriving DecidableEq, Repr

/-- Mapping of a stack-validation failure to the interpreter error. -/
def StackFail.toErr : StackFail → VMErr
  | .underflow => .stackUnderflow
  | .overflow => .stackOverflow

/-- The mutable per-invocation machine state threaded through the run loop:
program counter, current memory size in bytes, the stack, the contract's
remaining gas, and the interpreter's saved return data. -/
structure RunState where
  pc : Nat
  memSize : Nat
  stack : Stack
  gas : Nat
  returnData : Bytes
deriving DecidableEq, Repr

/-- An instruction-table entry (`operation` in the source): validity flag,
stack bounds, gas-cost function, optional memory-size function, execution
function, and the behavior flags writes/returns/reverts/halts/jumps.  The
execution function returns the updated machine state, the produced output
bytes, and an optional error code. -/
structure Operation where
  execute : RunState → RunState × Bytes × Option Nat
  gasCost : RunState → Nat → Option Nat
  minStack : Nat
  maxStack : Nat
  memorySize : Option (Stack → Nat)
  valid : Bool
  writes : Bool
  returnsData : Bool
  reverts : Bool
  halts : Bool
  jumps : Bool

/-- Modelled from the spec: stack validation checks that the stack holds at
least the operation's minimum number of operands and will not exceed its
maximum. -/
def validateStack (o : Operation) (s : Stack) : Option StackFail :=
  if s.data.length < o.minStack then some .underflow
  else if o.maxStack < s.data.length then some .overflow
  else none

/-- A contract as the interpreter sees it: a code blob and a gas counter. -/
structure Contract where
  code : Bytes
  gas : Nat
deriving DecidableEq, Repr

/-- Modelled from the spec: fetching the opcode at `pc`; positions beyond the
code length read as byte 0, the implicit STOP. -/
def getOp (code : Bytes) (pc : Nat) : OpCode :=
  code.getD pc 0

/-- The read-only context of one interpreter invocation: the instruction
table, the gas-metering switch of the configuration, the chain rule flag for
the Byzantium fork, and the static-call (read-only) flag. -/
structure StepCtx where
  table : OpCode → Operation
  disableGasMetering : Bool
  isByzantium : Bool
  readOnly : Bool

/-- Translation of `Interpreter.enforceRestrictions`: under the Byzantium
chain rules, in read-only mode, an operation flagged `writes`, or a CALL
whose third-from-top stack item (the value) is nonzero, is rejected with the
write-protection error. -/
def enforceRestrictions (isByzantium readOnly : Bool) (op : OpCode)
    (o : Operation) (stack : Stack) : Option VMErr :=
  if isByzantium then
    if readOnly then
      if o.writes || (op = CALL && 0 < stack.back 2) then
        some .writeProtection
      else none
    else none
  else none

/-- Modelled from the spec: the word-rounded size, `ceil(size / 32)` words. -/
def toWordSize (size : Nat) : Nat :=
  (size + 31) / 32

/-- Modelled from the spec: conversion of a big-integer byte size to a
64-bit value; the boolean is the overflow flag (`bigUint64` in the source,
overflowing exactly when the value needs more than 64 bits). -/
def bigUint64 (v : Nat) : Nat × Bool :=
  (v % 2 ^ 64, 2 ^ 64 ≤ v)

/-- Modelled from the spec: 64-bit multiplication with overflow detection
(`math.SafeMul`), overflowing exactly when the product exceeds the 64-bit
range. -/
def safeMul (x y : Nat) : Nat × Bool :=
  (x * y % 2 ^ 64, 2 ^ 64 ≤ x * y)

/-- Translation of the memory-size phase of the run loop: when the operation
has a memory-size function, its big-integer result is converted to a 64-bit
byte size, rounded up to whole 32-byte words and multiplied back to bytes;
either overflow yields the gas-overflow error. -/
def calcMemorySize (o : Operation) (stack : Stack) : Except VMErr Nat :=
  match o.memorySize with
  | none => .ok 0
  | some f =>
    let conv := bigUint64 (f stack)
    if conv.2 then .error .gasUintOverflow
    else
      let prod := safeMul (toWordSize conv.1) 32
      if prod.2 then .error .gasUintOverflow
      else .ok prod.1

/-- Modelled from the spec: `Contract.UseGas` deducts a cost from the gas
counter, failing (returning `none`) when the remaining gas is less than the
cost. -/
def useGas (gas cost : Nat) : Option Nat :=
  if gas < cost then none else some (gas - cost)

/-- Translation of the gas-metering phase of the run loop: unless metering is
disabled, the operation's gas-cost function is consulted and the cost is
deducted from the contract's gas counter; a cost-function error or
insufficient gas yields `none` (reported as out-of-gas by the caller). -/
def meterGas (ctx : StepCtx) (o : Operation) (st : RunState)
    (memorySize : Nat) : Option RunState :=
  if ctx.disableGasMetering then some st
  else
    match o.gasCost st memorySize with
    | none => none
    | some cost =>
      match useGas st.gas cost with
      | none => none
      | some g => some { st with gas := g }

/-- Modelled from the spec: `Memory.Resize` grows the buffer to the new size
and never shrinks it. -/
def memResize (cur new : Nat) : Nat :=
  max cur new

/-- Translation of the memory-expansion step of the run loop: the memory is
resized only when the computed memory size is positive. -/
def resizePhase (st : RunState) (memorySize : Nat) : RunState :=
  if 0 < memorySize then { st with memSize := memResize st.memSize memorySize }
  else st

/-- Result of one iteration of the run loop: either `Run` returns (with the
returned bytes, the error, and the machine state at the return), or the loop
continues with an updated state. -/
inductive StepResult where
  | done (ret : Option Bytes) (err : Option VMErr) (st : RunState)
  | next (st : RunState)
deriving DecidableEq, Repr

/-- Translation of the dispatch-and-classify tail of the run loop: the
operation's execution function runs, the interpreter's return data is
replaced when the `returns` flag is set, and the outcome is classified in
source order: an execution error fails the run with no output; the `reverts`
flag halts with revert status returning the output; the `halts` flag halts
normally returning the output; otherwise the loop continues, incrementing
the program counter exactly when the `jumps` flag is unset. -/
def applyExec (o : Operation) (st : RunState) : StepResult :=
  let r := o.execute st
  let st1 := if o.returnsData then { r.1 with returnData := r.2.1 } else r.1
  match r.2.2 with
  | some k => .done none (some (.execFailure k)) st1
  | none =>
    if o.reverts then .done (some r.2.1) (some .executionReverted) st1
    else if o.halts then .done (some r.2.1) none st1
    else if o.jumps then .next st1
    else .next { st1 with pc := st1.pc + 1 }

/-- Translation of one iteration of `Interpreter.Run`'s main loop: fetch the
opcode, look it up in the table (invalid entries fail with the
invalid-opcode error), validate the stack, enforce the static-call
restrictions, compute the memory size, meter and deduct gas (insufficient
gas or a cost-function error fails with out-of-gas), grow the memory, then
dispatch the execution function and classify its outcome. -/
def step (ctx : StepCtx) (code : Bytes) (st : RunState) : StepResult :=
  let op := getOp code st.pc
  let o := ctx.table op
  if !o.valid then .done none (some (.invalidOpcode op)) st
  else
    match validateStack o st.stack with
    | some f => .done none (some f.toErr) st
    | none =>
      match enforceRestrictions ctx.isByzantium ctx.readOnly op o st.stack with
      | some e => .done none (some e) st
      | none =>
        match calcMemorySize o st.stack with
        | .error e => .done none (some e) st
        | .ok memorySize =>
          match meterGas ctx o st memorySize with
          | none => .done none (some .outOfGas) st
          | some st1 => applyExec o (resizePhase st1 memorySize)

/-- Translation of `Interpreter.Run`'s main loop: the external abort flag is
polled at the top of every iteration (modelled as a schedule `abort` indexed
by the iteration counter `i`); when it is observed set the loop exits and
`Run` returns nil output and nil error.  The loop is fuel-indexed; `none`
means the fuel ran out before the run returned. -/
def runLoop (ctx : StepCtx) (code : Bytes) (abort : Nat → Bool) :
    Nat → Nat → RunState → Option (Option Bytes × Option VMErr × RunState)
  | 0, _, _ => none
  | fuel + 1, i, st =>
    if abort i then some (none, none, st)
    else
      match step ctx code st with
      | .done ret err st1 => some (ret, err, st1)
      | .next st1 => runLoop ctx code abort fuel (i + 1) st1

/-- The machine state at the top of `Interpreter.Run`: program counter 0,
empty memory, a fresh local stack, the contract's gas, and the return data
reset to nil. -/
def initialState (contract : Contract) : RunState :=
  { pc := 0, memSize := 0, stack := ⟨[]⟩, gas := contract.gas, returnData := [] }

/-- Translation of the body of `Interpreter.Run` (after the depth counter
update): the saved return data is reset, a contract with no code returns nil
output and nil error at once, and otherwise the main loop runs from the
initial machine state. -/
def interpRun (ctx : StepCtx) (abort : Nat → Bool) (fuel : Nat)
    (contract : Contract) : Option (Option Bytes × Option VMErr × RunState) :=
  if contract.code.length = 0 then some (none, none, initialState contract)
  else runLoop ctx contract.code abort fuel 0 (initialState contract)

/-- Translation of `Interpreter.Run`'s depth bookkeeping: the call depth is
incremented once at entry and the deferred function decrements it on every
exit path, so the pair returned is the caller-visible depth after the call
together with the run's outcome. -/
def runWithDepth (depth : Nat) (ctx : StepCtx) (abort : Nat → Bool)
    (fuel : Nat) (contract : Contract) :
    Nat × Option (Option Bytes × Option VMErr × RunState) :=
  let entryDepth := depth + 1
  let out := interpRun ctx abort fuel contract
  (entryDepth - 1, out)

/-! Jump-table selection at interpreter construction (`NewInterpreter`). -/

/-- Modelled from the spec: a chain configuration records the fork-activation
block numbers of the Homestead and Byzantium forks (`none` when the fork is
never activated). -/
structure ChainConfig where
  homesteadBlock : Option Nat
  byzantiumBlock : Option Nat
deriving DecidableEq, Repr

/-- Modelled from the spec: a fork is active at a block number when its
activation height is configured and does not exceed that number. -/
def forkActive (block : Option Nat) (num : Nat) : Bool :=
  match block with
  | none => false
  | some b => b ≤ num

/-- Modelled from the spec: whether the Homestead fork is active at the given
block number of the chain configuration. -/
def ChainConfig.isHomestead (cc : ChainConfig) (num : Nat) : Bool :=
  forkActive cc.homesteadBlock num

/-- Modelled from the spec: whether the Byzantium fork is active at the given
block number of the chain configuration. -/
def ChainConfig.isByzantium (cc : ChainConfig) (num : Nat) : Bool :=
  forkActive cc.byzantiumBlock num

/-- Modelled from the spec: the instruction tables an interpreter can use,
as distinct tags — the caller-supplied table or one of the three historical
instruction-set variants (Frontier, Homestead, Byzantium), which the spec
describes as distinct per-fork variants. -/
inductive TableChoice where
  | supplied
  | frontierSet
  | homesteadSet
  | byzantiumSet
deriving DecidableEq, Repr

/-- Translation of the jump-table selection in `NewInterpreter`:
`suppliedValid` is the test `cfg.JumpTable[STOP].valid`; when the caller has
not supplied a table, the source unconditionally installs the Homestead
instruction set (the fork-based selection present in upstream go-ethereum is
commented out in this repository). -/
def newInterpreterTable (suppliedValid : Bool) (_cc : ChainConfig)
    (_blockNum : Nat) : TableChoice :=
  if suppliedValid then .supplied else .homesteadSet

/-- Stated from the spec's words, for comparison with `newInterpreterTable`:
the table is selected from the Frontier/Homestead/Byzantium instruction sets
according to which fork is activated at the current block number, when the
caller has not supplied a table. -/
def specForkTable (suppliedValid : Bool) (cc : ChainConfig)
    (blockNum : Nat) : TableChoice :=
  if suppliedValid then .supplied
  else if cc.isByzantium blockNum then .byzantiumSet
  else if cc.isHomestead blockNum then .homesteadSet
  else .frontierSet

/-! Memory-expansion gas.  The gas constants are from
`src/chain/params/protocol_params.go`; the cost function itself lives in the
gas file that is not among the provided sources and is modelled from the
spec. -/

/-- Divisor for the quadratic particle of the memory cost equation
(`params.QuadCoeffDiv`). -/
def QuadCoeffDiv : Nat := 512

/-- Linear coefficient of the memory cost equation (`params.MemoryGas`). -/
def MemoryGas : Nat := 3

/-- Modelled from the spec: the total memory fee at a given memory size,
`MemoryGas * words + words^2 / QuadCoeffDiv` with `words = ceil(size/32)`
(integer division throughout, as gas is an unsigned integer). -/
def memTotalFee (size : Nat) : Nat :=
  MemoryGas * toWordSize size + toWordSize size ^ 2 / QuadCoeffDiv

/-- Modelled from the spec: the gas charged for a memory expansion is the
difference between the total fee at the new size and the total fee already
charged at the current size, and no gas is charged when the memory does not
grow. -/
def memExpansionCost (curSize newSize : Nat) : Nat :=
  if curSize < newSize then memTotalFee newSize - memTotalFee curSize
  else 0

/-! Concrete instruction-table entries used to evaluate the model on
closed inputs. -/

/-- An execution function that changes nothing, produces no output and no
error. -/
def noExec : RunState → RunState × Bytes × Option Nat :=
  fun st => (st, [], none)

/-- A simple valid halting operation with base cost 2. -/
def haltOp : Operation where
  execute := noExec
  gasCost := fun _ _ => some 2
  minStack := 0
  maxStack := 1024
  memorySize := none
  valid := true
  writes := false
  returnsData := false
  reverts := false
  halts := true
  jumps := false

/-- An invalid table entry. -/
def invalidOp : Operation :=
  { haltOp with valid := false }

/-- A CALL-like operation: valid, not flagged `writes`, continues. -/
def callLikeOp : Operation :=
  { haltOp with halts := false }

/-- An operation whose memory-size function requests 2^64 bytes. -/
def bigMemOp : Operation :=
  { haltOp with memorySize := some (fun _ => 2 ^ 64) }

/-- An operation with base cost 5, continuing, not halting. -/
def costlyOp : Operation :=
  { haltOp with gasCost := fun _ _ => some 5, halts := false }

/-- A sample instruction table: opcode 0x0c is invalid (as in the Homestead
set), CALL dispatches to the CALL-like operation, 0x60 to the costly
operation, 0x61 to the big-memory operation, everything else halts. -/
def table0 : OpCode → Operation := fun op =>
  if op = 0x0c then invalidOp
  else if op = CALL then callLikeOp
  else if op = 0x60 then costlyOp
  else if op = 0x61 then bigMemOp
  else haltOp

/-- A sample non-static context outside the Byzantium fork. -/
def ctx0 : StepCtx :=
  { table := table0, disableGasMetering := false, isByzantium := false,
    readOnly := false }

/-- A sample static (read-only) context under the Byzantium fork. -/
def ctxStatic : StepCtx :=
  { table := table0, disableGasMetering := false, isByzantium := true,
    readOnly := true }

/-! Helper lemmas. -/

/-- A step can only report the write-protection error when the Byzantium
chain rules are active and the interpreter is in read-only mode: every other
error site of the run loop produces a different error kind. -/
theorem step_writeProt_byz {ctx : StepCtx} {code : Bytes} {st : RunState}
    {r : Option Bytes} {s1 : RunState}
    (h : step ctx code st = .done r (some .writeProtection) s1) :
    ctx.isByzantium = true ∧ ctx.readOnly = true := by
  simp only [step] at h
  split at h
  · simp at h
  · split at h
    · rename_i f _
      cases f <;> simp [StackFail.toErr] at h
    · split at h
      · rename_i e heq
        cases hb : ctx.isByzantium with
        | false =>
          rw [hb] at heq
          simp [enforceRestrictions] at heq
        | true =>
          cases hr : ctx.readOnly with
          | false =>
            rw [hb, hr] at heq
            simp [enforceRestrictions] at heq
          | true => exact ⟨rfl, rfl⟩
      · split at h
        · rename_i e heq
          simp only [calcMemorySize] at heq
          split at heq
          · simp at heq
          · split at heq
            · simp only [Except.error.injEq] at heq
              rw [← heq] at h
              simp at h
            · split at heq
              · simp only [Except.error.injEq] at heq
                rw [← heq] at h
                simp at h
              · simp at heq
        · split at h
          · simp at h
          · simp only [applyExec] at h
            split at h
            · simp at h
            · split at h
              · simp at h
              · split at h
                · simp at h
                · split at h <;> simp at h

/-- Word-rounding is monotone in the byte size. -/
theorem toWordSize_mono {a b : Nat} (h : a ≤ b) : toWordSize a ≤ toWordSize b :=
  Nat.div_le_div_right (Nat.add_le_add_right h 31)

/-- The quadratic particle of the memory fee is monotone in the word
count. -/
theorem quadFee_mono {a b : Nat} (h : a ≤ b) :
    a ^ 2 / QuadCoeffDiv ≤ b ^ 2 / QuadCoeffDiv :=
  Nat.div_le_div_right (Nat.pow_le_pow_left h 2)

/-! Claim theorems. -/

/-- Counterexample to C5: expanding memory from 736 bytes (23 words) to
1024 bytes (32 words) charges 28 gas — the difference of the two total
fees — while the claimed formula
MemoryGas*(w2-w1) + (w2^2-w1^2)/QuadCoeffDiv yields 27, because integer
division does not distribute over the difference of squares. -/
theorem C5_counterexample :
    memExpansionCost 736 1024 = 28 ∧
    MemoryGas * (toWordSize 1024 - toWordSize 736) +
      (toWordSize 1024 ^ 2 - toWordSize 736 ^ 2) / QuadCoeffDiv = 27 ∧
    memExpansionCost 736 1024 ≠
      MemoryGas * (toWordSize 1024 - toWordSize 736) +
        (toWordSize 1024 ^ 2 - toWordSize 736 ^ 2) / QuadCoeffDiv := by
  refine ⟨by decide, by decide, by decide⟩

/-- C5 (amended): with MemoryGas = 3, QuadCoeffDiv = 512 and
w = ceil(size/32), expanding memory from size S1 to S2 > S1 charges
MemoryGas*(w2-w1) + (w2^2/QuadCoeffDiv - w1^2/QuadCoeffDiv), the difference
of the total fees at the two sizes under integer division; expanding to
S2 ≤ S1 charges 0 additional gas. -/
theorem C5_mem_expansion_cost (s1 s2 : Nat) :
    (s1 < s2 → memExpansionCost s1 s2 =
      MemoryGas * (toWordSize s2 - toWordSize s1) +
        (toWordSize s2 ^ 2 / QuadCoeffDiv - toWordSize s1 ^ 2 / QuadCoeffDiv)) ∧
    (s2 ≤ s1 → memExpansionCost s1 s2 = 0) := by
  constructor
  · intro h
    have hw : toWordSize s1 ≤ toWordSize s2 := toWordSize_mono h.le
    have hq : toWordSize s1 ^ 2 / QuadCoeffDiv ≤ toWordSize s2 ^ 2 / QuadCoeffDiv :=
      quadFee_mono hw
    simp only [memExpansionCost, if_pos h, memTotalFee, MemoryGas]
    generalize toWordSize s1 = w1 at hw hq ⊢
    generalize toWordSize s2 = w2 at hw hq ⊢
    generalize w1 ^ 2 / QuadCoeffDiv = q1 at hq ⊢
    generalize w2 ^ 2 / QuadCoeffDiv = q2 at hq ⊢
    omega
  · intro h
    simp [memExpansionCost, Nat.not_lt.mpr h]

/-- Witness for C5: expanding from 0 to 64 bytes charges 3·2 + 0 = 6 gas,
and expanding from 64 to 64 charges nothing. -/
theorem C5_witness :
    memExpansionCost 0 64 =
      MemoryGas * (toWordSize 64 - toWordSize 0) +
        (toWordSize 64 ^ 2 / QuadCoeffDiv - toWordSize 0 ^ 2 / QuadCoeffDiv) ∧
    memExpansionCost 64 64 = 0 :=
  ⟨(C5_mem_expansion_cost 0 64).1 (by decide),
   (C5_mem_expansion_cost 64 64).2 (by decide)⟩

/-- Counterexample to C1: with a chain configuration whose Byzantium fork is
active at the current block (activation height 0, block 5) and no
caller-supplied table, `NewInterpreter` installs the Homestead instruction
set, while selection according to the activated fork would install the
Byzantium instruction set. -/
theorem C1_counterexample :
    newInterpreterTable false ⟨some 0, some 0⟩ 5 = TableChoice.homesteadSet ∧
    specForkTable false ⟨some 0, some 0⟩ 5 = TableChoice.byzantiumSet ∧
    newInterpreterTable false ⟨some 0, some 0⟩ 5 ≠
      specForkTable false ⟨some 0, some 0⟩ 5 := by
  refine ⟨rfl, by decide, by decide⟩

/-- C1 (amended): for every chain configuration and block number, when the
caller has not supplied a table a new Interpreter always uses the Homestead
instruction set, regardless of which fork is activated; when the caller has
supplied a table that table is kept; and the run loop consults the same
context (hence the same table) at every iteration, so the selected table
never changes during execution. -/
theorem C1_table_selection (cc : ChainConfig) (n : Nat) :
    newInterpreterTable false cc n = TableChoice.homesteadSet ∧
    newInterpreterTable true cc n = TableChoice.supplied ∧
    (∀ (ctx : StepCtx) (code : Bytes) (abort : Nat → Bool) (fuel i : Nat)
      (st : RunState),
      runLoop ctx code abort (fuel + 1) i st =
        if abort i then some (none, none, st)
        else
          match step ctx code st with
          | .done ret err st1 => some (ret, err, st1)
          | .next st1 => runLoop ctx code abort fuel (i + 1) st1) := by
  refine ⟨rfl, rfl, fun ctx code abort fuel i st => rfl⟩

/-- C8: the call depth observed by the caller after `Run` returns equals its
value before the call — it is incremented once at entry and the deferred
decrement runs on every exit path — and the depth bookkeeping does not
change the run's outcome. -/
theorem C8_depth_balanced (depth : Nat) (ctx : StepCtx) (abort : Nat → Bool)
    (fuel : Nat) (contract : Contract) :
    runWithDepth depth ctx abort fuel contract =
      (depth, interpRun ctx abort fuel contract) := by
  simp [runWithDepth]

/-- C9: whenever the abort flag is observed set at the top of an iteration,
the run loop terminates at once with nil output, nil error, and the machine
state untouched — no further instruction is executed. -/
theorem C9_abort_terminates (ctx : StepCtx) (code : Bytes)
    (abort : Nat → Bool) (fuel i : Nat) (st : RunState)
    (h : abort i = true) :
    runLoop ctx code abort (fuel + 1) i st = some (none, none, st) := by
  simp [runLoop, h]

/-- Witness for C9: a run whose abort flag is set at iteration 0 returns
immediately with no output. -/
theorem C9_witness :
    runLoop ctx0 [0x60] (fun _ => true) 4 0 (initialState ⟨[0x60], 10⟩) =
      some (none, none, initialState ⟨[0x60], 10⟩) :=
  C9_abort_terminates ctx0 [0x60] (fun _ => true) 3 0
    (initialState ⟨[0x60], 10⟩) rfl

/-- C10: a contract with empty code returns immediately with nil output and
nil error, for any fuel (hence executing no steps), and the gas counter of
the resulting machine state equals the contract's initial gas. -/
theorem C10_empty_code (ctx : StepCtx) (abort : Nat → Bool) (fuel : Nat)
    (contract : Contract) (h : contract.code = []) :
    interpRun ctx abort fuel contract =
      some (none, none, initialState contract) ∧
    (initialState contract).gas = contract.gas := by
  constructor
  · simp [interpRun, h]
  · rfl

/-- Witness for C10: running a codeless contract with 7 gas yields nil
output, nil error, and 7 gas remaining. -/
theorem C10_witness :
    (interpRun ctx0 (fun _ => false) 0 ⟨[], 7⟩ =
      some (none, none, initialState ⟨[], 7⟩) ∧
     (initialState (⟨[], 7⟩ : Contract)).gas = 7) :=
  C10_empty_code ctx0 (fun _ => false) 0 ⟨[], 7⟩ rfl

/-- C7: when the contract's code is nonempty, the abort flag is unset, and
the table entry for the first opcode is invalid, `Run` fails on the very
first iteration with the invalid-opcode error for that opcode and produces
no output, leaving the machine state at its initial value. -/
theorem C7_invalid_first_opcode (ctx : StepCtx) (abort : Nat → Bool)
    (fuel : Nat) (contract : Contract)
    (h1 : contract.code.length ≠ 0) (h2 : abort 0 = false)
    (h3 : (ctx.table (getOp contract.code 0)).valid = false) :
    interpRun ctx abort (fuel + 1) contract =
      some (none, some (.invalidOpcode (getOp contract.code 0)),
        initialState contract) := by
  simp only [interpRun, if_neg h1]
  simp only [runLoop, h2, Bool.false_eq_true, if_false]
  simp [step, initialState, h3]

/-- Witness for C7: code consisting solely of the byte 0x0c, which the
sample table (like the Homestead set) marks invalid, fails at once with the
invalid-opcode error and no output. -/
theorem C7_witness :
    interpRun ctx0 (fun _ => false) 1 ⟨[0x0c], 10⟩ =
      some (none, some (VMErr.invalidOpcode 0x0c),
        initialState ⟨[0x0c], 10⟩) :=
  C7_invalid_first_opcode ctx0 (fun _ => false) 0 ⟨[0x0c], 10⟩
    (by decide) rfl (by decide)

/-- C2: under the Byzantium chain rules, in read-only mode, a step whose
operation is valid and passes stack validation fails with the
write-protection error whenever the operation is flagged `writes` or the
opcode is CALL with a nonzero third-from-top stack item (the value
operand); when the Byzantium fork is not active, `enforceRestrictions`
accepts everything and no step can produce the write-protection error. -/
theorem C2_static_write_protection (ctx : StepCtx) (code : Bytes)
    (st : RunState) :
    (ctx.isByzantium = true → ctx.readOnly = true →
      (ctx.table (getOp code st.pc)).valid = true →
      validateStack (ctx.table (getOp code st.pc)) st.stack = none →
      ((ctx.table (getOp code st.pc)).writes = true ∨
        (getOp code st.pc = CALL ∧ 0 < st.stack.back 2)) →
      step ctx code st = .done none (some .writeProtection) st) ∧
    (ctx.isByzantium = false →
      (∀ (op : OpCode) (o : Operation) (s : Stack),
        enforceRestrictions ctx.isByzantium ctx.readOnly op o s = none) ∧
      ∀ (r : Option Bytes) (s1 : RunState),
        step ctx code st ≠ .done r (some .writeProtection) s1) := by
  constructor
  · intro hb hr hv hvs hcond
    have henf : enforceRestrictions ctx.isByzantium ctx.readOnly
        (getOp code st.pc) (ctx.table (getOp code st.pc)) st.stack =
        some .writeProtection := by
      rcases hcond with hw | ⟨hc, hval⟩
      · simp [enforceRestrictions, hb, hr, hw]
      · simp [enforceRestrictions, hb, hr, hc, hval]
    simp [step, hv, hvs, henf]
  · intro hb
    refine ⟨fun op o s => by simp [enforceRestrictions, hb], ?_⟩
    intro r s1 hcontra
    have hbyz := (step_writeProt_byz hcontra).1
    rw [hb] at hbyz
    exact Bool.false_ne_true hbyz

/-- Witness for C2: in the static Byzantium context, a CALL whose value
operand (third from top) is 1 fails with write protection, while the same
step in a non-Byzantium context does not produce the write-protection
error. -/
theorem C2_witness :
    (step ctxStatic [CALL] ⟨0, 0, ⟨[0, 0, 1]⟩, 10, []⟩ =
      .done none (some VMErr.writeProtection) ⟨0, 0, ⟨[0, 0, 1]⟩, 10, []⟩) ∧
    (step ctx0 [CALL] ⟨0, 0, ⟨[0, 0, 1]⟩, 10, []⟩ ≠
      .done none (some VMErr.writeProtection) ⟨0, 0, ⟨[0, 0, 1]⟩, 10, []⟩) :=
  ⟨(C2_static_write_protection ctxStatic [CALL] ⟨0, 0, ⟨[0, 0, 1]⟩, 10, []⟩).1
      rfl rfl (by decide) (by decide) (Or.inr ⟨rfl, by decide⟩),
   ((C2_static_write_protection ctx0 [CALL] ⟨0, 0, ⟨[0, 0, 1]⟩, 10, []⟩).2
      rfl).2 none ⟨0, 0, ⟨[0, 0, 1]⟩, 10, []⟩⟩

/-- C3: when gas metering is enabled and a step passes opcode validation,
stack validation, the static-call restrictions and the memory-size
computation, the step's cost is computed by the operation's gas-cost
function; a cost-function error or a remaining gas smaller than the cost
fails the run with out-of-gas, and otherwise the cost is deducted from the
contract's gas counter before the execution function is dispatched. -/
theorem C3_gas_metering (ctx : StepCtx) (code : Bytes) (st : RunState)
    (hmeter : ctx.disableGasMetering = false)
    (hv : (ctx.table (getOp code st.pc)).valid = true)
    (hvs : validateStack (ctx.table (getOp code st.pc)) st.stack = none)
    (henf : enforceRestrictions ctx.isByzantium ctx.readOnly
      (getOp code st.pc) (ctx.table (getOp code st.pc)) st.stack = none)
    (msz : Nat)
    (hms : calcMemorySize (ctx.table (getOp code st.pc)) st.stack = .ok msz) :
    ((ctx.table (getOp code st.pc)).gasCost st msz = none →
      step ctx code st = .done none (some .outOfGas) st) ∧
    (∀ cost, (ctx.table (getOp code st.pc)).gasCost st msz = some cost →
      st.gas < cost → step ctx code st = .done none (some .outOfGas) st) ∧
    (∀ cost, (ctx.table (getOp code st.pc)).gasCost st msz = some cost →
      cost ≤ st.gas →
      step ctx code st =
        applyExec (ctx.table (getOp code st.pc))
          (resizePhase { st with gas := st.gas - cost } msz)) := by
  refine ⟨?_, ?_, ?_⟩
  · intro hc
    simp [step, hv, hvs, henf, hms, meterGas, hmeter, hc]
  · intro cost hc hlt
    simp [step, hv, hvs, henf, hms, meterGas, hmeter, hc, useGas, hlt]
  · intro cost hc hle
    simp [step, hv, hvs, henf, hms, meterGas, hmeter, hc, useGas,
      Nat.not_lt.mpr hle]

/-- Witness for C3: the sample operation at opcode 0x60 costs 5 gas; with
3 gas remaining the step fails with out-of-gas, and with 10 gas remaining
the step dispatches the execution function on the state with 5 gas
deducted. -/
theorem C3_witness :
    (step ctx0 [0x60] ⟨0, 0, ⟨[]⟩, 3, []⟩ =
      .done none (some VMErr.outOfGas) ⟨0, 0, ⟨[]⟩, 3, []⟩) ∧
    (step ctx0 [0x60] ⟨0, 0, ⟨[]⟩, 10, []⟩ =
      applyExec (ctx0.table (getOp [0x60] 0))
        (resizePhase ⟨0, 0, ⟨[]⟩, 10 - 5, []⟩ 0)) :=
  ⟨(C3_gas_metering ctx0 [0x60] ⟨0, 0, ⟨[]⟩, 3, []⟩ rfl (by decide)
      (by decide) rfl 0 rfl).2.1 5 rfl (by decide),
   (C3_gas_metering ctx0 [0x60] ⟨0, 0, ⟨[]⟩, 10, []⟩ rfl (by decide)
      (by decide) rfl 0 rfl).2.2 5 rfl (by decide)⟩

/-- C4: once the execution function has been dispatched, the outcome is
classified in source order — an execution error terminates the run as
failed with no output; otherwise the `reverts` flag terminates it with
revert status returning the produced output; otherwise the `halts` flag
terminates it normally returning the output; otherwise the loop continues,
and the program counter is incremented by one exactly when the `jumps`
flag is unset. -/
theorem C4_outcome_classification (o : Operation) (st st1 : RunState)
    (res : Bytes) (errk : Option Nat)
    (hexec : o.execute st = (st1, res, errk)) (st2 : RunState)
    (hst2 : st2 = if o.returnsData then { st1 with returnData := res }
      else st1) :
    (∀ k, errk = some k →
      applyExec o st = .done none (some (.execFailure k)) st2) ∧
    (errk = none → o.reverts = true →
      applyExec o st = .done (some res) (some .executionReverted) st2) ∧
    (errk = none → o.reverts = false → o.halts = true →
      applyExec o st = .done (some res) none st2) ∧
    (errk = none → o.reverts = false → o.halts = false → o.jumps = true →
      applyExec o st = .next st2) ∧
    (errk = none → o.reverts = false → o.halts = false → o.jumps = false →
      applyExec o st = .next { st2 with pc := st2.pc + 1 }) := by
  subst hst2
  refine ⟨?_, ?_, ?_, ?_, ?_⟩
  · intro k hk
    simp [applyExec, hexec, hk]
  · intro hk hrev
    simp [applyExec, hexec, hk, hrev]
  · intro hk hrev hhalt
    simp [applyExec, hexec, hk, hrev, hhalt]
  · intro hk hrev hhalt hj
    simp [applyExec, hexec, hk, hrev, hhalt, hj]
  · intro hk hrev hhalt hj
    simp [applyExec, hexec, hk, hrev, hhalt, hj]

/-- Witness for C4: the sample halting operation, whose execution function
returns no error and empty output, terminates the run normally returning
that output. -/
theorem C4_witness :
    applyExec haltOp ⟨0, 0, ⟨[]⟩, 8, []⟩ =
      .done (some []) none ⟨0, 0, ⟨[]⟩, 8, []⟩ :=
  (C4_outcome_classification haltOp ⟨0, 0, ⟨[]⟩, 8, []⟩ ⟨0, 0, ⟨[]⟩, 8, []⟩
      [] none rfl ⟨0, 0, ⟨[]⟩, 8, []⟩ rfl).2.2.1 rfl rfl rfl

/-- C6: when a step's operation has a memory-size function and either the
big-integer-to-64-bit conversion of the required byte size overflows or
multiplying the word count by 32 overflows 64 bits, the step fails with the
gas-overflow error. -/
theorem C6_memsize_overflow (ctx : StepCtx) (code : Bytes) (st : RunState)
    (hv : (ctx.table (getOp code st.pc)).valid = true)
    (hvs : validateStack (ctx.table (getOp code st.pc)) st.stack = none)
    (henf : enforceRestrictions ctx.isByzantium ctx.readOnly
      (getOp code st.pc) (ctx.table (getOp code st.pc)) st.stack = none)
    (f : Stack → Nat)
    (hf : (ctx.table (getOp code st.pc)).memorySize = some f)
    (hover : 2 ^ 64 ≤ f st.stack ∨
      2 ^ 64 ≤ toWordSize (f st.stack) * 32) :
    step ctx code st = .done none (some .gasUintOverflow) st := by
  have hcm : calcMemorySize (ctx.table (getOp code st.pc)) st.stack =
      .error .gasUintOverflow := by
    by_cases hbig : 2 ^ 64 ≤ f st.stack
    · have hb1 : (bigUint64 (f st.stack)).2 = true := by
        simp only [bigUint64, decide_eq_true_eq]
        exact hbig
      simp [calcMemorySize, hf, hb1]
    · rcases hover with hbig2 | hmul
      · exact absurd hbig2 hbig
      · have hmod : f st.stack % 2 ^ 64 = f st.stack :=
          Nat.mod_eq_of_lt (Nat.lt_of_not_le hbig)
        have hb1 : (bigUint64 (f st.stack)).2 = false := by
          simp only [bigUint64, decide_eq_false_iff_not]
          exact hbig
        have hm1 : (safeMul (toWordSize ((bigUint64 (f st.stack)).1)) 32).2 =
            true := by
          simp only [bigUint64, safeMul, hmod, decide_eq_true_eq]
          exact hmul
        simp [calcMemorySize, hf, hb1, hm1]
  simp [step, hv, hvs, henf, hcm]

/-- Witness for C6: the sample operation at opcode 0x61 requests 2^64 bytes
of memory, which overflows the 64-bit conversion, so the step fails with
the gas-overflow error. -/
theorem C6_witness :
    step ctx0 [0x61] ⟨0, 0, ⟨[]⟩, 100, []⟩ =
      .done none (some VMErr.gasUintOverflow) ⟨0, 0, ⟨[]⟩, 100, []⟩ :=
  C6_memsize_overflow ctx0 [0x61] ⟨0, 0, ⟨[]⟩, 100, []⟩ (by decide)
    (by decide) rfl (fun _ => 2 ^ 64) rfl (Or.inl (Nat.le_refl _))

end BokerVM
